import Mathlib

/-!
Shallow embedding of the compliant fetch / identity-merge / pricing core of
the price-comparison scraper (Go sources under `apps/api/internal` and the
repository files).  Strings are modelled as `List Char` (all inputs of
interest are ASCII); Go `float64` arithmetic in the pricing code is modelled
by exact rationals, which agrees with the IEEE computation at every input
used in a theorem below (checked against the binary64 values).  Machine
integers are modelled as `Int`; none of the embedded computations approaches
the 64-bit range.
-/

namespace ScrapingApp

/-! ## ASCII string helpers (Go `strings` package subset) -/

/-- ASCII lower-casing of one character (Go `strings.ToLower` restricted to
ASCII, which covers every host name and directive in the claims). -/
def asciiLower (c : Char) : Char :=
  if 65 ≤ c.toNat ∧ c.toNat ≤ 90 then Char.ofNat (c.toNat + 32) else c

/-- Lower-case a string, character-wise. -/
def lowerStr (l : List Char) : List Char := l.map asciiLower

/-- Go `unicode.IsSpace` restricted to ASCII whitespace. -/
def isGoSpace (c : Char) : Bool :=
  c = ' ' ∨ c = '\t' ∨ c = '\n' ∨ c = Char.ofNat 11 ∨ c = Char.ofNat 12 ∨ c = '\r'

/-- Go `strings.TrimSpace`: drop whitespace from both ends. -/
def trimSpace (l : List Char) : List Char :=
  ((l.dropWhile isGoSpace).reverse.dropWhile isGoSpace).reverse

/-- Substring containment, Go `strings.Contains` (needle, haystack). -/
def containsSub (needle : List Char) : List Char → Bool
  | [] => needle.isEmpty
  | c :: rest => needle.isPrefixOf (c :: rest) || containsSub needle rest

/-- Split a character list at every newline, Go `strings.Split(s, "\n")`. -/
def splitLines : List Char → List (List Char)
  | [] => [[]]
  | c :: rest =>
    if c = '\n' then [] :: splitLines rest
    else
      match splitLines rest with
      | [] => [[c]]
      | line :: more => (c :: line) :: more

/-- Split at the first colon, Go `strings.SplitN(line, ":", 2)`: returns the
part before and after the first colon when one exists. -/
def splitFirstColon : List Char → Option (List Char × List Char)
  | [] => none
  | c :: rest =>
    if c = ':' then some ([], rest)
    else
      match splitFirstColon rest with
      | none => none
      | some (a, b) => some (c :: a, b)

/-! ## Pricing normalizer (`apps/api/internal/shipping/calculator.go`)

Go `float64` arithmetic is modelled with exact rationals.  Every theorem
below evaluates the model only at inputs where the rational and binary64
computations agree (the bracket comparisons `19.99 < 20` and `99.99 < 50`
hold with a margin far exceeding one ulp). -/

/-- Go `math.Round`: round half away from zero. -/
def mathRound (q : ℚ) : Int :=
  if 0 ≤ q then ⌊q + 1/2⌋ else -⌊-q + 1/2⌋

/-- Go `int(x)` conversion from a float value: truncation toward zero. -/
def goTrunc (q : ℚ) : Int :=
  if 0 ≤ q then ⌊q⌋ else ⌈q⌉

/-- Shipping calculator configuration (`shipping.Config`). -/
structure ShippingConfig where
  mode : String
  feePercent : ℚ
  fxUSDJPY : ℚ

/-- Price-bracket table of `Calculator.calculateByTable`: under $20 ships at
$9.99, under $50 at $14.99, otherwise $19.99. -/
def calculateByTable (priceUSD : ℚ) : ℚ :=
  if priceUSD < 20 then 999/100
  else if priceUSD < 50 then 1499/100
  else 1999/100

/-- `Calculator.CalculateShipping`: table (or flat $14.99) base plus a
percentage handling fee on the price, rounded to cents. -/
def CalculateShipping (cfg : ShippingConfig) (priceAmountCents : Int) : Int :=
  let priceUSD : ℚ := (priceAmountCents : ℚ) / 100
  let shippingUSD : ℚ :=
    if cfg.mode = "TABLE" then calculateByTable priceUSD else 1499/100
  let feeAmount : ℚ := priceUSD * (cfg.feePercent / 100)
  let totalShipping : ℚ := shippingUSD + feeAmount
  mathRound (totalShipping * 100)

/-- `Calculator.CalculateTotal`: the price plus the freshly computed
shipping amount. -/
def CalculateTotal (cfg : ShippingConfig) (priceAmountCents : Int) : Int :=
  let shipping := CalculateShipping cfg priceAmountCents
  priceAmountCents + shipping

/-! ## Price parsing (`providers` package, `parsePrice`) -/

/-- One left-to-right pass of Go `strings.ReplaceAll(s, "$", "")`. -/
def removeDollar : List Char → List Char
  | [] => []
  | c :: rest => if c = '$' then removeDollar rest else c :: removeDollar rest

/-- One left-to-right pass of Go `strings.ReplaceAll(s, "USD", "")`
(non-overlapping occurrences removed left to right). -/
def removeUSD : List Char → List Char
  | 'U' :: 'S' :: 'D' :: rest => removeUSD rest
  | c :: rest => c :: removeUSD rest
  | [] => []

/-- One left-to-right pass of Go `strings.ReplaceAll(s, ",", "")`. -/
def removeComma : List Char → List Char
  | [] => []
  | c :: rest => if c = ',' then removeComma rest else c :: removeComma rest

/-- Digit list to natural number. -/
def digitsToNat (l : List Char) : Nat :=
  l.foldl (fun acc c => acc * 10 + (c.toNat - 48)) 0

/-- Go `strconv.ParseFloat` restricted to plain decimal notation
`[sign] digits [. digits]` with at least one digit.  The parsed value is
returned in exact form as a signed mantissa `m` and fraction length `k`,
denoting the rational `m / 10 ^ k`.  `parsePrice` only ever meets this
fragment; other accepted Go forms (exponents, hex floats, Inf/NaN) are
rejected by the model, which is never evaluated on them. -/
def parseGoFloatParts (l : List Char) : Option (Int × Nat) :=
  let (sign, body) :=
    match l with
    | '+' :: rest => ((1 : Int), rest)
    | '-' :: rest => ((-1 : Int), rest)
    | rest => ((1 : Int), rest)
  let intPart := body.takeWhile (·.isDigit)
  let afterInt := body.dropWhile (·.isDigit)
  match afterInt with
  | [] =>
    if intPart.isEmpty then none
    else some (sign * (digitsToNat intPart : Int), 0)
  | '.' :: fracRest =>
    let fracPart := fracRest.takeWhile (·.isDigit)
    let afterFrac := fracRest.dropWhile (·.isDigit)
    if afterFrac.isEmpty ∧ ¬(intPart.isEmpty ∧ fracPart.isEmpty) then
      some (sign * (digitsToNat (intPart ++ fracPart) : Int), fracPart.length)
    else none
  | _ => none

/-- Go `parsePrice`: strip dollar signs, the token `USD` and commas, trim
whitespace, parse the remainder as a decimal number, return the integer
truncation of 100 times the value, or 0 when parsing fails.  At the inputs
of the theorems below, the exact rational value of `price * 100` is a whole
number, and the binary64 computation yields the same integer (checked
against the binary64 values of those literals). -/
def parsePrice (text : List Char) : Int :=
  let t1 := removeDollar text
  let t2 := removeUSD t1
  let t3 := removeComma t2
  let t4 := trimSpace t3
  match parseGoFloatParts t4 with
  | some (m, k) => goTrunc ((m : ℚ) / (10 : ℚ) ^ k * 100)
  | none => 0

/-! ## URL classification (`httpclient/config.go`, `IsExternalURL`)

`url.Parse` itself is not modelled; a successfully parsed URL is a record of
its scheme, host and path components, and the places where `url.Parse` can
fail are represented by an `Option GoURL` input. -/

/-- Result of a successful `url.Parse`: the components the client reads. -/
structure GoURL where
  scheme : String
  host : String
  path : String
deriving DecidableEq

/-- The private 172.16/12 prefixes enumerated in `IsExternalURL`. -/
def prefixes172 : List (List Char) :=
  [("172.16.").toList, ("172.17.").toList, ("172.18.").toList, ("172.19.").toList,
   ("172.20.").toList, ("172.21.").toList, ("172.22.").toList, ("172.23.").toList,
   ("172.24.").toList, ("172.25.").toList, ("172.26.").toList, ("172.27.").toList,
   ("172.28.").toList, ("172.29.").toList, ("172.30.").toList, ("172.31.").toList]

/-- `IsExternalURL` after a successful parse: http/https with a non-empty
host whose lower-cased text neither contains one of the loopback substrings
nor starts with a private-range prefix. -/
def IsExternalURL (u : GoURL) : Bool :=
  if u.scheme ≠ "http" ∧ u.scheme ≠ "https" then false
  else if u.host = "" then false
  else
    let host := lowerStr u.host.toList
    if containsSub (("localhost").toList) host
        ∨ containsSub (("127.0.0.1").toList) host
        ∨ containsSub (("::1").toList) host
        ∨ (("192.168.").toList).isPrefixOf host
        ∨ (("10.").toList).isPrefixOf host
        ∨ prefixes172.any (fun p => p.isPrefixOf host) then
      false
    else true

/-! ## Robots compliance gate (`compliance/robots/robots.go`) -/

/-- One `User-agent` group of a robots.txt file (`RobotsRule`). -/
structure RobotsRule where
  userAgent : List Char
  disallow : List (List Char)
  allow : List (List Char)
deriving DecidableEq

/-- `Checker.pathMatches`: a pattern matches a path when the pattern is a
prefix of it and additionally the path equals the pattern, the pattern ends
in a slash, or the path continues with a slash after the pattern.  The
empty pattern matches nothing. -/
def pathMatches (path pattern : List Char) : Bool :=
  if pattern = [] then false
  else if ¬ pattern.isPrefixOf path then false
  else if path = pattern then true
  else if pattern.getLast? = some '/' then true
  else if (pattern ++ [ '/' ]).isPrefixOf path then true
  else false

/-- `Checker.checkPathAgainstRule`: Allow rules are consulted first and win;
otherwise a matching Disallow denies; otherwise the rule allows. -/
def checkPathAgainstRule (path : List Char) (rule : RobotsRule) : Bool × List Char :=
  if rule.allow.any (fun p => pathMatches path p) then (true, rule.userAgent)
  else if rule.disallow.any (fun p => pathMatches path p) then (false, rule.userAgent)
  else (true, rule.userAgent)

/-- Parsing state of `Checker.parseRobotsTxt`: accumulated groups plus the
group currently being filled. -/
def parseRobotsLine (st : List RobotsRule × Option RobotsRule) (rawLine : List Char) :
    List RobotsRule × Option RobotsRule :=
  let line := trimSpace rawLine
  if line = [] ∨ line.headI = '#' then st
  else
    match splitFirstColon line with
    | none => st
    | some (rawDirective, rawValue) =>
      let directive := lowerStr (trimSpace rawDirective)
      let value := trimSpace rawValue
      if directive = ("user-agent").toList then
        let flushed := match st.2 with
          | some r => st.1 ++ [r]
          | none => st.1
        (flushed, some ⟨value, [], []⟩)
      else if directive = ("disallow").toList then
        match st.2 with
        | some r => (st.1, some { r with disallow := r.disallow ++ [value] })
        | none => st
      else if directive = ("allow").toList then
        match st.2 with
        | some r => (st.1, some { r with allow := r.allow ++ [value] })
        | none => st
      else st

/-- `Checker.parseRobotsTxt`: split into lines, fold the directive handler,
then flush the trailing group.  (The Go function receives the user agent as
an argument but never reads it.) -/
def parseRobotsTxt (content : List Char) : List RobotsRule :=
  let (rules, current) := (splitLines content).foldl parseRobotsLine ([], none)
  match current with
  | some r => rules ++ [r]
  | none => rules

/-- First rule of the list that allows the path, if any, with its group
name (the loop over `matchedRules` in `Checker.checkPath`). -/
def firstAllowingGroup (path : List Char) : List RobotsRule → Option (List Char)
  | [] => none
  | r :: rest =>
    let (allowed, group) := checkPathAgainstRule path r
    if allowed then some group else firstAllowingGroup path rest

/-- `Checker.checkPath`: select the groups whose user agent matches exactly,
falling back to the last wildcard group (per-iteration loop variables, Go
1.22 semantics, matching the package's own tests), defaulting to allow when
nothing matches; then allow if any selected group allows. -/
def checkPath (path : List Char) (rules : List RobotsRule) (userAgent : List Char) :
    Bool × List Char :=
  let matchedRules := rules.filter (fun r => r.userAgent = userAgent)
  let wildcardRule := (rules.filter (fun r => r.userAgent = [ '*' ])).getLast?
  let matched :=
    if matchedRules.isEmpty then
      match wildcardRule with
      | some w => [w]
      | none => []
    else matchedRules
  match matched with
  | [] => (true, [])
  | r :: rest =>
    match firstAllowingGroup path (r :: rest) with
    | some g => (true, g)
    | none => (false, r.userAgent)

/-- Outcome of one HTTP request made while fetching robots.txt. -/
inductive FetchOutcome where
  | netErr (msg : String)
  | resp (status : Int) (body : List Char)
deriving DecidableEq

/-- Environment of one `Checker.CanFetch` call: the two cache tiers and the
responses the network would give to the HTTPS and HTTP robots.txt requests.
`persistentCache` is the content the external cache returns with a nil
error; `memoryCacheValid` is the content of an unexpired in-process entry. -/
structure RobotsEnv where
  persistentCache : Option (List Char)
  memoryCacheValid : Option (List Char)
  https : FetchOutcome
  http : FetchOutcome

/-- Fallback of `Checker.fetchRobotsTxt` after a failed HTTPS attempt: retry
over plain HTTP only when the original robots URL was http; otherwise the
fetch fails. -/
def fetchRobotsTxtFallback (env : RobotsEnv) (scheme : String) : Except String (List Char) :=
  if scheme = "http" then
    match env.http with
    | .netErr m => .error m
    | .resp s body =>
      if s = 200 then .ok body
      else .error ("robots.txt returned status " ++ toString s)
  else .error ("failed to fetch robots.txt")

/-- `Checker.fetchRobotsTxt`: try HTTPS first (upgrading an http URL); a nil
error with status 200 returns the body, anything else falls back. -/
def fetchRobotsTxt (env : RobotsEnv) (scheme : String) : Except String (List Char) :=
  match env.https with
  | .resp s body => if s = 200 then .ok body else fetchRobotsTxtFallback env scheme
  | .netErr _ => fetchRobotsTxtFallback env scheme

/-- `Checker.getRobotsTxt`: persistent cache (used only when non-empty with
nil error), then unexpired memory cache, then the network. -/
def getRobotsTxt (env : RobotsEnv) (scheme : String) : Except String (List Char) :=
  match env.persistentCache with
  | some c =>
    if c.length > 0 then .ok c
    else
      match env.memoryCacheValid with
      | some m => .ok m
      | none => fetchRobotsTxt env scheme
  | none =>
    match env.memoryCacheValid with
    | some m => .ok m
    | none => fetchRobotsTxt env scheme

/-- `Checker.CanFetch` on an already parsed URL: obtain robots.txt through
the caches, failing closed (deny plus error) when that fails; otherwise
parse it and check the path (empty path means the root). -/
def CanFetch (env : RobotsEnv) (u : GoURL) (userAgent : String) :
    Bool × List Char × Option String :=
  match getRobotsTxt env u.scheme with
  | .error e => (false, [], some ("robots.txt check failed: " ++ e))
  | .ok content =>
    let rules := parseRobotsTxt content
    let path := if u.path = "" then "/" else u.path
    let (allowed, ruleGroup) := checkPath path.toList rules userAgent.toList
    (allowed, ruleGroup, none)

/-! ## Resilient fetch client (`httpclient/client.go`, `Client.Get`) -/

/-- Client configuration fields read by `Get` (`httpclient.Config`). -/
structure ClientConfig where
  allowLiveFetch : Bool
  userAgent : String
  maxRetries : Nat

/-- Outcome of one iteration of the retry loop: request construction
failure, transport error, or a response with a status code. -/
inductive AttemptOutcome where
  | reqErr (msg : String)
  | netErr (msg : String)
  | resp (status : Int)
deriving DecidableEq

/-- Result of the robots gate as seen by `Client.Get`. -/
inductive RobotsCall where
  | err (msg : String)
  | ok (allowed : Bool) (group : List Char)
deriving DecidableEq

/-- Environment of one `Client.Get` call: what the robots checker, the rate
limiter, each HTTP attempt, and the context-cancellation check during the
backoff after each attempt would return. -/
structure GetEnv where
  robots : RobotsCall
  waitErr : Option String
  attempt : Nat → AttemptOutcome
  cancelledDuringBackoff : Nat → Bool

/-- Observable result of `Client.Get`. -/
inductive GetResult where
  | invalidURL
  | liveFetchBlocked
  | robotsCheckFailed (msg : String)
  | robotsDisallowed (group : List Char)
  | waitFailed (msg : String)
  | ctxCancelled
  | ok (status : Int) (retryCount : Nat)
  | exhausted (lastErr : Option String)
deriving DecidableEq

/-- Audit entry fields relevant to the claims (`audit.Entry`; the wall-clock
timestamp, duration and the url/host/path strings are elided). -/
structure AuditEntry where
  status : Int
  robotsAllowed : Bool
  robotsGroup : List Char
  retryCount : Nat
  errorMsg : Option String
deriving DecidableEq

/-- Exit of the retry loop in `Client.Get`. -/
inductive LoopExit where
  | ok (status : Int) (retryCount : Nat)
  | cancelled
  | exhausted (retryCount : Nat) (lastErr : Option String)
deriving DecidableEq

/-- Whether a status code triggers a retry: 429 or any 5xx. -/
def shouldRetryStatus (status : Int) : Bool :=
  status = 429 ∨ (500 ≤ status ∧ status < 600)

/-- The retry loop of `Client.Get` (`for attempt := 0; attempt <= maxRetries`):
returns the exit and the number of HTTP attempts actually performed.  A
request-construction error breaks out of the loop; a transport error records
the error and retries (the final iteration falls through to the exhausted
epilogue); a retryable status retries until the final iteration, which
returns the response itself; context cancellation during a backoff aborts
without auditing.  `fuel` is the number of remaining iterations,
`maxRetries + 1 - attempt`. -/
def getLoop (maxRetries : Nat) (env : GetEnv) :
    Nat → Nat → Option String → Nat → LoopExit × Nat
  | 0, _, lastErr, retryCount => (.exhausted retryCount lastErr, 0)
  | fuel + 1, attempt, lastErr, _ =>
    match env.attempt attempt with
    | .reqErr m => (.exhausted attempt (some m), 0)
    | .netErr m =>
      if attempt < maxRetries then
        if env.cancelledDuringBackoff attempt then (.cancelled, 1)
        else
          let (ex, n) := getLoop maxRetries env fuel (attempt + 1) (some m) attempt
          (ex, n + 1)
      else
        let (ex, n) := getLoop maxRetries env fuel (attempt + 1) (some m) attempt
        (ex, n + 1)
    | .resp status =>
      if shouldRetryStatus status ∧ attempt < maxRetries then
        if env.cancelledDuringBackoff attempt then (.cancelled, 1)
        else
          let (ex, n) := getLoop maxRetries env fuel (attempt + 1) lastErr attempt
          (ex, n + 1)
      else (.ok status attempt, 1)

/-- Everything observable about one `Client.Get` call: its result, the audit
entries it emitted, whether the robots gate was consulted, and how many
HTTP attempts went out. -/
structure GetOutcome where
  result : GetResult
  audits : List AuditEntry
  robotsConsulted : Bool
  httpAttempts : Nat
deriving DecidableEq

/-- The audit entry written when live fetch is disabled for an external URL. -/
def liveFetchBlockedAudit : AuditEntry :=
  { status := 0, robotsAllowed := false, robotsGroup := [], retryCount := 0,
    errorMsg := some "ALLOW_LIVE_FETCH is false, external URL access blocked" }

/-- Assemble the loop phase of `Client.Get`: rate-limiter wait (whose error
returns without auditing), then the retry loop, then the per-exit audit
entry. -/
def runLoopPhase (cfg : ClientConfig) (env : GetEnv)
    (robotsAllowed : Bool) (robotsGroup : List Char) (robotsConsulted : Bool) : GetOutcome :=
  match env.waitErr with
  | some m => { result := .waitFailed m, audits := [], robotsConsulted, httpAttempts := 0 }
  | none =>
    let (ex, n) := getLoop cfg.maxRetries env (cfg.maxRetries + 1) 0 none 0
    match ex with
    | .ok status retryCount =>
      { result := .ok status retryCount,
        audits := [{ status, robotsAllowed, robotsGroup, retryCount, errorMsg := none }],
        robotsConsulted, httpAttempts := n }
    | .cancelled =>
      { result := .ctxCancelled, audits := [], robotsConsulted, httpAttempts := n }
    | .exhausted retryCount lastErr =>
      { result := .exhausted lastErr,
        audits := [{ status := 0, robotsAllowed, robotsGroup, retryCount,
                     errorMsg := some (lastErr.getD "unknown error") }],
        robotsConsulted, httpAttempts := n }

/-- `Client.Get`: URL validation, the live-fetch policy gate, the robots
gate for external URLs, then rate limiting and the retry loop. -/
def ClientGet (cfg : ClientConfig) (parsed : Option GoURL) (env : GetEnv) : GetOutcome :=
  match parsed with
  | none =>
    { result := .invalidURL, audits := [], robotsConsulted := false, httpAttempts := 0 }
  | some u =>
    if IsExternalURL u ∧ ¬cfg.allowLiveFetch then
      { result := .liveFetchBlocked, audits := [liveFetchBlockedAudit],
        robotsConsulted := false, httpAttempts := 0 }
    else if IsExternalURL u then
      match env.robots with
      | .err m =>
        { result := .robotsCheckFailed m,
          audits := [{ status := 0, robotsAllowed := false, robotsGroup := [],
                       retryCount := 0,
                       errorMsg := some ("robots.txt check failed: " ++ m) }],
          robotsConsulted := true, httpAttempts := 0 }
      | .ok allowed group =>
        if ¬allowed then
          { result := .robotsDisallowed group,
            audits := [{ status := 0, robotsAllowed := false, robotsGroup := group,
                         retryCount := 0,
                         errorMsg := some "robots.txt disallows this path" }],
            robotsConsulted := true, httpAttempts := 0 }
        else runLoopPhase cfg env true group true
    else runLoopPhase cfg env false [] false

/-- Bridge from the robots checker result to what `Client.Get` observes. -/
def robotsCallOfCanFetch (r : Bool × List Char × Option String) : RobotsCall :=
  match r.2.2 with
  | some m => .err m
  | none => .ok r.1 r.2.1

/-- True when a robots.txt request fails: transport error or non-200. -/
def fetchFailed : FetchOutcome → Bool
  | .netErr _ => true
  | .resp s _ => s ≠ 200

/-! ## Offer storage (`repository/offer.go`) and the offer-refresh phase of
`Processor.processCandidate` (`jobs/processor.go`)

The `offers` table is modelled as a list of rows; uuids are modelled as
naturals.  `Upsert` implements the `ON CONFLICT (product_id, source,
seller, COALESCE(url, '')) DO UPDATE` statement: an existing row with the
same key keeps its identity and takes the new price fields, otherwise the
row is inserted.  Timestamps are elided. -/

/-- The conflict key of the offers table: product, source, seller and
url-or-empty (`COALESCE(url, '')`). -/
structure OfferKey where
  productId : Nat
  source : String
  seller : String
  urlOrEmpty : String
deriving DecidableEq

/-- An offer row; only the fields the claims mention are carried. -/
structure Offer where
  productId : Nat
  source : String
  seller : String
  urlOrEmpty : String
  priceAmount : Int
  shippingToUSAmount : Int
  totalToUSAmount : Int
deriving DecidableEq

/-- The conflict key of a row. -/
def Offer.key (o : Offer) : OfferKey :=
  ⟨o.productId, o.source, o.seller, o.urlOrEmpty⟩

/-- The non-key columns the `DO UPDATE` clause copies from the excluded row. -/
def applyOfferUpdate (old new : Offer) : Offer :=
  { old with priceAmount := new.priceAmount,
             shippingToUSAmount := new.shippingToUSAmount,
             totalToUSAmount := new.totalToUSAmount }

/-- `OfferRepository.Upsert`. -/
def OfferUpsert (db : List Offer) (o : Offer) : List Offer :=
  if db.any (fun e => e.key = o.key) then
    db.map (fun e => if e.key = o.key then applyOfferUpdate e o else e)
  else db ++ [o]

/-- `OfferRepository.DeleteByProductIDAndSource`. -/
def OfferDeleteByProductIDAndSource (db : List Offer) (productId : Nat) (source : String) :
    List Offer :=
  db.filter (fun e => ¬(e.productId = productId ∧ e.source = source))

/-- The per-offer normalization in `processCandidate`: shipping and total
are recomputed from the price before the upsert. -/
def refreshOffer (shippingCfg : ShippingConfig) (o : Offer) : Offer :=
  { o with shippingToUSAmount := CalculateShipping shippingCfg o.priceAmount,
           totalToUSAmount := CalculateTotal shippingCfg o.priceAmount }

/-- The offer-refresh phase of `Processor.processCandidate`: delete the old
offers of the (product, source) pair, then recompute shipping and total for
each fetched offer and upsert it. -/
def processOffers (shippingCfg : ShippingConfig) (db : List Offer)
    (productId : Nat) (source : String) (offers : List Offer) : List Offer :=
  let db1 := OfferDeleteByProductIDAndSource db productId source
  offers.foldl (fun d o => OfferUpsert d (refreshOffer shippingCfg o)) db1

/-- Rows of the pair a cycle refreshes. -/
def pairOffers (db : List Offer) (productId : Nat) (source : String) : List Offer :=
  db.filter (fun e => e.productId = productId ∧ e.source = source)

/-! ## Identity resolution (`Processor.processCandidate`, first half, and
`repository/product.go`, `repository/product_identifier.go`)

Products and identifier mappings are modelled as in-memory lists; the
`LIMIT 1` lookups return the first matching row.  Repository errors (which
the Go code logs and survives) do not arise in the pure model. -/

/-- A product row. -/
structure Product where
  id : Nat
  title : String
  brand : Option String
  model : Option String
  imageURL : Option String
deriving DecidableEq

/-- A product_identifiers row. -/
structure IdentifierRow where
  productId : Nat
  idType : String
  value : String
deriving DecidableEq

/-- Candidate from a provider search (`providers.ProductCandidate`). -/
structure ProductCandidate where
  title : String
  brand : Option String
  model : Option String
  imageURL : Option String
  identifier : Option String
deriving DecidableEq

/-- Database state seen by the resolution phase.  `nextId` models uuid
generation: ids of existing rows are smaller than it. -/
structure RepoState where
  products : List Product
  identifiers : List IdentifierRow
  nextId : Nat
deriving DecidableEq

/-- `getIdentifierType`: walmart items carry an `itemId`, amazon items an
`ASIN`, anything else has no identifier type. -/
def getIdentifierType (sourceName : String) : String :=
  if sourceName = "walmart" then "itemId"
  else if sourceName = "amazon" then "ASIN"
  else ""

/-- `ProductIdentifierRepository.FindByTypeAndValue`: join of the first
matching identifier row with its product. -/
def FindByTypeAndValue (st : RepoState) (idType value : String) : Option Product :=
  match st.identifiers.find? (fun i => i.idType = idType ∧ i.value = value) with
  | none => none
  | some i => st.products.find? (fun p => p.id = i.productId)

/-- `ProductRepository.FindByTitle`: first product with exactly this title. -/
def FindByTitle (st : RepoState) (title : String) : Option Product :=
  st.products.find? (fun p => p.title = title)

/-- The field patch applied to a matched product: candidate fields override
when present (nil-pointer check in Go). -/
def patchProduct (p : Product) (c : ProductCandidate) : Product :=
  { p with brand := match c.brand with | some b => some b | none => p.brand,
           model := match c.model with | some m => some m | none => p.model,
           imageURL := match c.imageURL with | some i => some i | none => p.imageURL }

/-- `ProductRepository.Update`: replace the row with the same id. -/
def updateProduct (st : RepoState) (p : Product) : RepoState :=
  { st with products := st.products.map (fun q => if q.id = p.id then p else q) }

/-- The identifier-based lookup performed first by `processCandidate`: only
for a present, non-empty identifier of a source with a known identifier
type. -/
def lookupByIdentifier (st : RepoState) (c : ProductCandidate) (sourceName : String) :
    Option Product :=
  match c.identifier with
  | none => none
  | some v =>
    if v ≠ "" then
      let t := getIdentifierType sourceName
      if t ≠ "" then FindByTypeAndValue st t v else none
    else none

/-- The identity-resolution phase of `Processor.processCandidate`: identifier
lookup first, then title lookup; an existing product is patched and updated;
otherwise a new product is created and, when an identifier with a known type
is present, its mapping is persisted. -/
def resolveCandidate (st : RepoState) (c : ProductCandidate) (sourceName : String) :
    Product × RepoState :=
  match lookupByIdentifier st c sourceName with
  | some p =>
    let p1 := patchProduct p c
    (p1, updateProduct st p1)
  | none =>
    match FindByTitle st c.title with
    | some p =>
      let p1 := patchProduct p c
      (p1, updateProduct st p1)
    | none =>
      let newP : Product :=
        { id := st.nextId, title := c.title, brand := c.brand,
          model := c.model, imageURL := c.imageURL }
      let st1 : RepoState :=
        { st with products := st.products ++ [newP], nextId := st.nextId + 1 }
      let st2 : RepoState :=
        match c.identifier with
        | some v =>
          if v ≠ "" ∧ getIdentifierType sourceName ≠ "" then
            { st1 with identifiers :=
                st1.identifiers ++ [⟨newP.id, getIdentifierType sourceName, v⟩] }
          else st1
        | none => st1
      (newP, st2)

/-- Freshness invariant of uuid modelling: every stored id is older than
`nextId`. -/
def freshIds (st : RepoState) : Prop :=
  ∀ p ∈ st.products, p.id < st.nextId

/-- Referential integrity of the identifier table (the schema declares
`product_id` as a foreign key into `products`). -/
def wfIdentifiers (st : RepoState) : Prop :=
  ∀ i ∈ st.identifiers, ∃ p ∈ st.products, p.id = i.productId

end ScrapingApp

namespace ScrapingApp

/-! ## Theorems -/

/-- C8: for every configuration and non-negative price in cents, the total
equals the price plus the computed shipping; in TABLE mode the $19.99 price
falls into the $9.99 bracket and the $99.99 price into the $19.99 bracket. -/
theorem C8_total_is_price_plus_shipping :
    (∀ (cfg : ShippingConfig) (p : Int), 0 ≤ p →
        CalculateTotal cfg p = p + CalculateShipping cfg p)
    ∧ calculateByTable (1999/100) = 999/100
    ∧ calculateByTable (9999/100) = 1999/100 := by
  refine ⟨fun cfg p _ => rfl, ?_, ?_⟩
  · rw [calculateByTable, if_pos (by norm_num)]
  · rw [calculateByTable, if_neg (by norm_num), if_neg (by norm_num)]

/-- C8 witness: the identity evaluated at the default TABLE configuration and
the price $19.99. -/
theorem C8_total_is_price_plus_shipping_witness :
    (0 : Int) ≤ 1999
    ∧ CalculateTotal ⟨"TABLE", 3, 150⟩ 1999 =
        1999 + CalculateShipping ⟨"TABLE", 3, 150⟩ 1999 :=
  ⟨by norm_num, C8_total_is_price_plus_shipping.1 ⟨"TABLE", 3, 150⟩ 1999 (by norm_num)⟩

/-- C9: `parsePrice` turns `$1,299.99` into 129999 cents and an unparsable
string into 0. -/
theorem C9_parsePrice :
    parsePrice (("$1,299.99").toList) = 129999
    ∧ parsePrice (("invalid").toList) = 0 := by
  constructor
  · have hs : trimSpace (removeComma (removeUSD (removeDollar (("$1,299.99").toList))))
        = ("1299.99").toList := by decide
    have hp : parseGoFloatParts (("1299.99").toList) = some (129999, 2) := by decide
    simp only [parsePrice, hs, hp]
    have hval : ((129999 : Int) : ℚ) / (10 : ℚ) ^ (2 : Nat) * 100 = (129999 : ℚ) := by
      norm_num
    rw [hval, goTrunc, if_pos (by norm_num)]
    norm_num
  · have hs : trimSpace (removeComma (removeUSD (removeDollar (("invalid").toList))))
        = ("invalid").toList := by decide
    have hp : parseGoFloatParts (("invalid").toList) = none := by decide
    simp only [parsePrice, hs, hp]

/-- C5: with `Disallow: /admin/` and `Allow: /admin/public/` in one group,
`/admin/public/x` is allowed and `/admin/secret` is denied, both at the
level of a single rule group and through the full robots.txt parser. -/
theorem C5_allow_beats_disallow :
    (∀ ua : List Char,
        checkPathAgainstRule (("/admin/public/x").toList)
          ⟨ua, [("/admin/").toList], [("/admin/public/").toList]⟩ = (true, ua)
      ∧ checkPathAgainstRule (("/admin/secret").toList)
          ⟨ua, [("/admin/").toList], [("/admin/public/").toList]⟩ = (false, ua))
    ∧ checkPath (("/admin/public/x").toList)
        (parseRobotsTxt
          (("User-agent: *\nDisallow: /admin/\nAllow: /admin/public/\n").toList))
        (("SomeBot").toList) = (true, ("*").toList)
    ∧ checkPath (("/admin/secret").toList)
        (parseRobotsTxt
          (("User-agent: *\nDisallow: /admin/\nAllow: /admin/public/\n").toList))
        (("SomeBot").toList) = (false, ("*").toList) := by
  refine ⟨fun ua => ⟨?_, ?_⟩, by decide, by decide⟩
  · rfl
  · rfl

/-- The loop phase reports exactly the robots-consultation flag it was
handed. -/
theorem runLoopPhase_robotsConsulted (cfg : ClientConfig) (env : GetEnv)
    (a : Bool) (g : List Char) (rc : Bool) :
    (runLoopPhase cfg env a g rc).robotsConsulted = rc := by
  rw [runLoopPhase]
  cases env.waitErr with
  | none =>
    cases h : getLoop cfg.maxRetries env (cfg.maxRetries + 1) 0 none 0 with
    | mk ex n => cases ex <;> simp
  | some m => rfl

/-- The loop phase never produces a policy or robots error. -/
theorem runLoopPhase_result_not_policy (cfg : ClientConfig) (env : GetEnv)
    (a : Bool) (g : List Char) (rc : Bool) :
    (runLoopPhase cfg env a g rc).result ≠ .liveFetchBlocked
    ∧ (∀ gr, (runLoopPhase cfg env a g rc).result ≠ .robotsDisallowed gr)
    ∧ (∀ m, (runLoopPhase cfg env a g rc).result ≠ .robotsCheckFailed m) := by
  rw [runLoopPhase]
  cases env.waitErr with
  | none =>
    cases h : getLoop cfg.maxRetries env (cfg.maxRetries + 1) 0 none 0 with
    | mk ex n => cases ex <;> simp
  | some m => simp

/-- C1: an external URL with live fetch disabled is rejected with the
policy-blocked error before any robots consultation or HTTP attempt, and an
internal URL never receives the policy-blocked or robots-disallowed error. -/
theorem C1_live_fetch_gate :
    (∀ (cfg : ClientConfig) (u : GoURL) (env : GetEnv),
        IsExternalURL u = true → cfg.allowLiveFetch = false →
          (ClientGet cfg (some u) env).result = .liveFetchBlocked
        ∧ (ClientGet cfg (some u) env).robotsConsulted = false
        ∧ (ClientGet cfg (some u) env).httpAttempts = 0)
    ∧ (∀ (cfg : ClientConfig) (u : GoURL) (env : GetEnv),
        IsExternalURL u = false →
          (ClientGet cfg (some u) env).result ≠ .liveFetchBlocked
        ∧ ∀ g, (ClientGet cfg (some u) env).result ≠ .robotsDisallowed g) := by
  constructor
  · intro cfg u env hext hflag
    rw [ClientGet]
    rw [if_pos (by simp [hext, hflag])]
    exact ⟨rfl, rfl, rfl⟩
  · intro cfg u env hint
    rw [ClientGet]
    rw [if_neg (by simp [hint]), if_neg (by simp [hint])]
    exact ⟨(runLoopPhase_result_not_policy cfg env false [] false).1,
           (runLoopPhase_result_not_policy cfg env false [] false).2.1⟩

/-- C1 witness: the gate evaluated at a concrete external URL with live
fetch disabled, and at a concrete loopback URL with a concrete environment. -/
theorem C1_live_fetch_gate_witness :
    (IsExternalURL ⟨"https", "example.com", "/p"⟩ = true
      ∧ (ClientGet ⟨false, "UA", 3⟩ (some ⟨"https", "example.com", "/p"⟩)
          ⟨.ok true [], none, fun _ => .resp 200, fun _ => false⟩).result
          = .liveFetchBlocked)
    ∧ (IsExternalURL ⟨"http", "localhost", "/p"⟩ = false
      ∧ (ClientGet ⟨false, "UA", 3⟩ (some ⟨"http", "localhost", "/p"⟩)
          ⟨.ok true [], none, fun _ => .resp 200, fun _ => false⟩).result
          ≠ .liveFetchBlocked) :=
  ⟨⟨by decide,
    (C1_live_fetch_gate.1 ⟨false, "UA", 3⟩ ⟨"https", "example.com", "/p"⟩
      ⟨.ok true [], none, fun _ => .resp 200, fun _ => false⟩ (by decide) rfl).1⟩,
   ⟨by decide,
    (C1_live_fetch_gate.2 ⟨false, "UA", 3⟩ ⟨"http", "localhost", "/p"⟩
      ⟨.ok true [], none, fun _ => .resp 200, fun _ => false⟩ (by decide)).1⟩⟩

/-- C10: any http/https URL whose lower-cased host merely contains one of
the loopback substrings — including hosts such as
`localhost.attacker.example` — is classified internal, so `Get` consults no
robots.txt and is not blocked by the live-fetch flag. -/
theorem C10_loopback_substring_classified_internal :
    (∀ (u : GoURL) (cfg : ClientConfig) (env : GetEnv),
        (u.scheme = "http" ∨ u.scheme = "https") →
        (containsSub (("localhost").toList) (lowerStr u.host.toList) = true
          ∨ containsSub (("127.0.0.1").toList) (lowerStr u.host.toList) = true
          ∨ containsSub (("::1").toList) (lowerStr u.host.toList) = true) →
          IsExternalURL u = false
        ∧ (ClientGet cfg (some u) env).robotsConsulted = false
        ∧ (cfg.allowLiveFetch = false →
            (ClientGet cfg (some u) env).result ≠ .liveFetchBlocked))
    ∧ IsExternalURL ⟨"http", "localhost.attacker.example", "/a"⟩ = false
    ∧ IsExternalURL ⟨"https", "127.0.0.1.evil.example", "/a"⟩ = false := by
  refine ⟨?_, by decide, by decide⟩
  intro u cfg env hscheme hsub
  have hext : IsExternalURL u = false := by
    rw [IsExternalURL]
    rcases hscheme with h | h <;>
      rw [if_neg (by simp [h])] <;>
      by_cases hh : u.host = ""
    · rw [if_pos hh]
    · rw [if_neg hh,
        if_pos (by
          rcases hsub with h1 | h1 | h1
          · exact Or.inl h1
          · exact Or.inr (Or.inl h1)
          · exact Or.inr (Or.inr (Or.inl h1)))]
    · rw [if_pos hh]
    · rw [if_neg hh,
        if_pos (by
          rcases hsub with h1 | h1 | h1
          · exact Or.inl h1
          · exact Or.inr (Or.inl h1)
          · exact Or.inr (Or.inr (Or.inl h1)))]
  refine ⟨hext, ?_, ?_⟩
  · rw [ClientGet, if_neg (by simp [hext]), if_neg (by simp [hext])]
    exact runLoopPhase_robotsConsulted cfg env false [] false
  · intro _
    rw [ClientGet, if_neg (by simp [hext]), if_neg (by simp [hext])]
    exact (runLoopPhase_result_not_policy cfg env false [] false).1

/-- The HTTP fallback of the robots fetch fails when the HTTP attempt
fails. -/
theorem fetchRobotsTxtFallback_error (env : RobotsEnv) (scheme : String)
    (hhttp : fetchFailed env.http = true) :
    ∃ e, fetchRobotsTxtFallback env scheme = .error e := by
  rw [fetchRobotsTxtFallback]
  by_cases hs : scheme = "http"
  · rw [if_pos hs]
    cases h2 : env.http with
    | netErr m2 => exact ⟨m2, rfl⟩
    | resp s2 b2 =>
      have hne : ¬s2 = 200 := by
        rw [h2] at hhttp
        simpa [fetchFailed] using hhttp
      exact ⟨"robots.txt returned status " ++ toString s2, by simp only [if_neg hne]⟩
  · rw [if_neg hs]; exact ⟨_, rfl⟩

/-- A failing robots.txt fetch on both the HTTPS and the HTTP attempt makes
`fetchRobotsTxt` return an error, for every scheme. -/
theorem fetchRobotsTxt_error (env : RobotsEnv) (scheme : String)
    (hhttps : fetchFailed env.https = true) (hhttp : fetchFailed env.http = true) :
    ∃ e, fetchRobotsTxt env scheme = .error e := by
  rw [fetchRobotsTxt]
  cases h : env.https with
  | netErr m => exact fetchRobotsTxtFallback_error env scheme hhttp
  | resp s b =>
    have hne : ¬s = 200 := by
      rw [h] at hhttps
      simpa [fetchFailed] using hhttps
    simp only [if_neg hne]
    exact fetchRobotsTxtFallback_error env scheme hhttp

/-- With both cache tiers empty, `getRobotsTxt` goes to the network. -/
theorem getRobotsTxt_cacheMiss (env : RobotsEnv) (scheme : String)
    (hpc : env.persistentCache = none) (hmc : env.memoryCacheValid = none) :
    getRobotsTxt env scheme = fetchRobotsTxt env scheme := by
  rw [getRobotsTxt, hpc, hmc]

/-- C2: when both cache tiers miss and both the HTTPS and HTTP robots.txt
requests fail, `CanFetch` denies with a non-nil error, and a `Get` whose
robots gate reports that result returns the robots-check error without a
single HTTP attempt. -/
theorem C2_robots_retrieval_fail_closed (renv : RobotsEnv) (u : GoURL) (ua : String)
    (cfg : ClientConfig) (genv : GetEnv)
    (hpc : renv.persistentCache = none) (hmc : renv.memoryCacheValid = none)
    (hhttps : fetchFailed renv.https = true) (hhttp : fetchFailed renv.http = true)
    (hext : IsExternalURL u = true) (hallow : cfg.allowLiveFetch = true)
    (hrob : genv.robots = robotsCallOfCanFetch (CanFetch renv u ua)) :
    (CanFetch renv u ua).1 = false
    ∧ (CanFetch renv u ua).2.2.isSome = true
    ∧ (∃ m, (ClientGet cfg (some u) genv).result = .robotsCheckFailed m)
    ∧ (ClientGet cfg (some u) genv).httpAttempts = 0 := by
  obtain ⟨e, he⟩ := fetchRobotsTxt_error renv u.scheme hhttps hhttp
  have hget : getRobotsTxt renv u.scheme = .error e := by
    rw [getRobotsTxt_cacheMiss renv u.scheme hpc hmc, he]
  have hcf : CanFetch renv u ua = (false, [], some ("robots.txt check failed: " ++ e)) := by
    rw [CanFetch, hget]
  have hcall : genv.robots = .err ("robots.txt check failed: " ++ e) := by
    rw [hrob, hcf, robotsCallOfCanFetch]
  have hgo : ClientGet cfg (some u) genv =
      { result := .robotsCheckFailed ("robots.txt check failed: " ++ e),
        audits := [{ status := 0, robotsAllowed := false, robotsGroup := [],
                     retryCount := 0,
                     errorMsg := some ("robots.txt check failed: "
                       ++ ("robots.txt check failed: " ++ e)) }],
        robotsConsulted := true, httpAttempts := 0 } := by
    rw [ClientGet, if_neg (by simp [hallow]), if_pos (by simp [hext]), hcall]
  rw [hcf, hgo]
  exact ⟨rfl, rfl, ⟨_, rfl⟩, rfl⟩

/-- C2 witness: the fail-closed path evaluated at a concrete external URL
whose robots.txt requests both fail with a transport error. -/
theorem C2_robots_retrieval_fail_closed_witness :
    (CanFetch ⟨none, none, .netErr "conn refused", .netErr "conn refused"⟩
        ⟨"http", "example.com", "/page"⟩ "UA").1 = false
    ∧ (ClientGet ⟨true, "UA", 3⟩ (some ⟨"http", "example.com", "/page"⟩)
        ⟨robotsCallOfCanFetch
            (CanFetch ⟨none, none, .netErr "conn refused", .netErr "conn refused"⟩
              ⟨"http", "example.com", "/page"⟩ "UA"),
          none, fun _ => .resp 200, fun _ => false⟩).httpAttempts = 0 :=
  by
    have h := C2_robots_retrieval_fail_closed
      ⟨none, none, .netErr "conn refused", .netErr "conn refused"⟩
      ⟨"http", "example.com", "/page"⟩ "UA" ⟨true, "UA", 3⟩
      ⟨robotsCallOfCanFetch
          (CanFetch ⟨none, none, .netErr "conn refused", .netErr "conn refused"⟩
            ⟨"http", "example.com", "/page"⟩ "UA"),
        none, fun _ => .resp 200, fun _ => false⟩
      rfl rfl (by decide) (by decide) (by decide) rfl rfl
    exact ⟨h.1, h.2.2.2⟩

/-- C3 counterexample: a call with an unparsable URL returns the invalid-URL
error yet emits no audit entry at all, so not every call emits exactly one
entry. -/
theorem C3_counterexample :
    (ClientGet ⟨true, "UA", 3⟩ none
        ⟨.ok true [], none, fun _ => .resp 200, fun _ => false⟩).result = .invalidURL
    ∧ (ClientGet ⟨true, "UA", 3⟩ none
        ⟨.ok true [], none, fun _ => .resp 200, fun _ => false⟩).audits.length = 0 := by
  exact ⟨rfl, rfl⟩

/-- The loop phase emits one audit entry except on the wait-failure and
cancellation returns, which emit none. -/
theorem runLoopPhase_audits_length (cfg : ClientConfig) (env : GetEnv)
    (a : Bool) (g : List Char) (rc : Bool) :
    (runLoopPhase cfg env a g rc).audits.length =
      (match (runLoopPhase cfg env a g rc).result with
        | .invalidURL => 0
        | .waitFailed _ => 0
        | .ctxCancelled => 0
        | _ => 1) := by
  rw [runLoopPhase]
  cases env.waitErr with
  | some m => rfl
  | none =>
    cases hexit : getLoop cfg.maxRetries env (cfg.maxRetries + 1) 0 none 0 with
    | mk ex n => cases ex <;> rfl

/-- C3 amended: every call emits exactly one audit entry except the
invalid-URL, rate-limiter-wait-failure and backoff-cancellation returns,
which emit none. -/
theorem C3_one_audit_entry (cfg : ClientConfig) (parsed : Option GoURL) (env : GetEnv) :
    (ClientGet cfg parsed env).audits.length =
      (match (ClientGet cfg parsed env).result with
        | .invalidURL => 0
        | .waitFailed _ => 0
        | .ctxCancelled => 0
        | _ => 1) := by
  cases parsed with
  | none => rfl
  | some u =>
    rw [ClientGet]
    split
    · rfl
    · split
      · split
        · rfl
        · split
          · rfl
          · apply runLoopPhase_audits_length
      · apply runLoopPhase_audits_length

/-- C4 counterexample: with the default three retries and every attempt
answering 429, `Get` returns the final 429 response itself (nil error, retry
count 3) rather than an error. -/
theorem C4_counterexample :
    (ClientGet ⟨true, "UA", 3⟩ (some ⟨"http", "localhost", "/"⟩)
        ⟨.ok true [], none, fun _ => .resp 429, fun _ => false⟩).result
      = .ok 429 3 := by decide

/-- When every attempt returns 429 and no backoff is cancelled, the retry
loop ends by returning the last 429 response with the maximal retry count. -/
theorem getLoop_all_429 (m : Nat) (env : GetEnv)
    (hall : ∀ i, env.attempt i = .resp 429)
    (hnc : ∀ i, env.cancelledDuringBackoff i = false) :
    ∀ fuel attempt lastErr rc, attempt + fuel = m + 1 → 0 < fuel →
      getLoop m env fuel attempt lastErr rc = (.ok 429 m, fuel) := by
  intro fuel
  induction fuel with
  | zero => intro attempt lastErr rc _ hpos; omega
  | succ f ih =>
    intro attempt lastErr rc hsum _
    rw [getLoop, hall attempt]
    dsimp only
    by_cases hlt : attempt < m
    · have hf : 0 < f := by omega
      rw [if_pos (show shouldRetryStatus 429 = true ∧ attempt < m from ⟨by decide, hlt⟩)]
      rw [hnc attempt]
      rw [if_neg (show ¬(false = true) by simp)]
      rw [ih (attempt + 1) lastErr attempt (by omega) hf]
    · have ha : attempt = m := by omega
      have hf0 : f = 0 := by omega
      rw [if_neg (show ¬(shouldRetryStatus 429 = true ∧ attempt < m) by simp [hlt])]
      rw [ha, hf0]

/-- C4 amended: if every attempt of a `Get` call that reaches the retry loop
receives HTTP 429 and no backoff is interrupted, then after the configured
maximum number of retries the caller receives the last 429 response itself
(status 429, retry count equal to the maximum), with no error; the last
status is carried on the returned response rather than on an error value. -/
theorem C4_repeated_429_returns_last_response (cfg : ClientConfig) (u : GoURL)
    (env : GetEnv) (g : List Char)
    (hrob : env.robots = .ok true g) (hallow : cfg.allowLiveFetch = true)
    (hwait : env.waitErr = none)
    (hall : ∀ i, env.attempt i = .resp 429)
    (hnc : ∀ i, env.cancelledDuringBackoff i = false) :
    (ClientGet cfg (some u) env).result = .ok 429 cfg.maxRetries := by
  have hloop := getLoop_all_429 cfg.maxRetries env hall hnc
    (cfg.maxRetries + 1) 0 none 0 (by omega) (by omega)
  have hrun : ∀ a gr rc, (runLoopPhase cfg env a gr rc).result = .ok 429 cfg.maxRetries := by
    intro a gr rc
    rw [runLoopPhase, hwait, hloop]
  rw [ClientGet]
  by_cases h2 : IsExternalURL u = true
  · rw [if_neg (by simp [hallow]), if_pos (by simp [h2]), hrob]
    dsimp only
    rw [if_neg (show ¬(¬(true = true)) by simp)]
    exact hrun true g true
  · rw [if_neg (by simp [hallow]), if_neg (by simp [h2])]
    exact hrun false [] false

/-- C4 witness: the amended behaviour evaluated at a concrete external URL,
two retries and an all-429 environment. -/
theorem C4_repeated_429_returns_last_response_witness :
    (ClientGet ⟨true, "UA", 2⟩ (some ⟨"https", "example.com", "/p"⟩)
        ⟨.ok true [], none, fun _ => .resp 429, fun _ => false⟩).result
      = .ok 429 2 :=
  C4_repeated_429_returns_last_response ⟨true, "UA", 2⟩ ⟨"https", "example.com", "/p"⟩
    ⟨.ok true [], none, fun _ => .resp 429, fun _ => false⟩ []
    rfl rfl rfl (fun _ => rfl) (fun _ => rfl)

/-- Normalizing shipping does not change an offer's conflict key, nor its
product/source pair. -/
theorem refreshOffer_key (cfg : ShippingConfig) (o : Offer) :
    (refreshOffer cfg o).key = o.key
    ∧ (refreshOffer cfg o).productId = o.productId
    ∧ (refreshOffer cfg o).source = o.source :=
  ⟨rfl, rfl, rfl⟩

/-- After deleting by product and source, no row of that pair remains. -/
theorem pairOffers_delete (db : List Offer) (pid : Nat) (src : String) :
    pairOffers (OfferDeleteByProductIDAndSource db pid src) pid src = [] := by
  rw [pairOffers, OfferDeleteByProductIDAndSource]
  refine List.filter_eq_nil_iff.mpr ?_
  intro a ha
  have h2 := (List.mem_filter.mp ha).2
  simp only [decide_eq_true_eq] at h2 ⊢
  exact h2

/-- The in-place update of the upsert keeps the key, product and source of
every row. -/
theorem updateKeep_fields (o e : Offer) :
    (if e.key = o.key then applyOfferUpdate e o else e).key = e.key
    ∧ (if e.key = o.key then applyOfferUpdate e o else e).productId = e.productId
    ∧ (if e.key = o.key then applyOfferUpdate e o else e).source = e.source := by
  by_cases h : e.key = o.key
  · rw [if_pos h]; exact ⟨rfl, rfl, rfl⟩
  · rw [if_neg h]; exact ⟨rfl, rfl, rfl⟩

/-- The in-place update pass of the upsert leaves the pair's key set
unchanged. -/
theorem pairOffers_update_keys (o : Offer) (pid : Nat) (src : String) (k2 : OfferKey) :
    ∀ d : List Offer,
      k2 ∈ (pairOffers (d.map fun e => if e.key = o.key then applyOfferUpdate e o else e)
              pid src).map Offer.key
        ↔ k2 ∈ (pairOffers d pid src).map Offer.key := by
  intro d
  induction d with
  | nil => simp [pairOffers]
  | cons e rest ih =>
    simp only [pairOffers] at ih ⊢
    rw [List.map_cons, List.filter_cons, List.filter_cons,
      (updateKeep_fields o e).2.1, (updateKeep_fields o e).2.2]
    by_cases hp : (decide (e.productId = pid ∧ e.source = src)) = true
    · rw [if_pos hp, if_pos hp, List.map_cons, List.map_cons, (updateKeep_fields o e).1]
      simp only [List.mem_cons]
      exact or_congr Iff.rfl ih
    · rw [if_neg hp, if_neg hp]
      exact ih

/-- Upserting a row of the pair adds exactly its key to the pair's key set:
an update rewrites a row in place keeping every key, an insert appends the
new row. -/
theorem pairOffers_upsert_keys (d : List Offer) (o : Offer) (pid : Nat) (src : String)
    (ho : o.productId = pid ∧ o.source = src) (k : OfferKey) :
    k ∈ (pairOffers (OfferUpsert d o) pid src).map Offer.key
      ↔ (k ∈ (pairOffers d pid src).map Offer.key ∨ k = o.key) := by
  rw [OfferUpsert]
  by_cases hany : d.any (fun e => e.key = o.key) = true
  · rw [if_pos hany]
    have hmem : o.key ∈ (pairOffers d pid src).map Offer.key := by
      obtain ⟨e, hed, hek⟩ := List.any_eq_true.mp hany
      have hek : e.key = o.key := by simpa using hek
      have hpair : e.productId = pid ∧ e.source = src := by
        have h1 : e.productId = o.productId := congrArg OfferKey.productId hek
        have h2 : e.source = o.source := congrArg OfferKey.source hek
        exact ⟨h1.trans ho.1, h2.trans ho.2⟩
      exact List.mem_map.mpr ⟨e, List.mem_filter.mpr ⟨hed, by simpa using hpair⟩, hek⟩
    rw [pairOffers_update_keys o pid src k d]
    constructor
    · exact Or.inl
    · rintro (h | h)
      · exact h
      · rw [h]; exact hmem
  · rw [if_neg hany]
    rw [pairOffers, List.filter_append]
    have : List.filter (fun e => e.productId = pid ∧ e.source = src) [o] = [o] := by
      simp [List.filter_cons, ho]
    rw [this, List.map_append]
    simp [pairOffers]

/-- Folding the upserts of a cycle over a store makes the pair's key set the
union of the store's pair keys and the cycle's keys. -/
theorem foldl_upsert_keys (cfg : ShippingConfig) (pid : Nat) (src : String) :
    ∀ (offers : List Offer) (d : List Offer),
      (∀ o ∈ offers, o.productId = pid ∧ o.source = src) →
      ∀ k : OfferKey,
        k ∈ (pairOffers (offers.foldl (fun d o => OfferUpsert d (refreshOffer cfg o)) d)
              pid src).map Offer.key
          ↔ (k ∈ (pairOffers d pid src).map Offer.key ∨ k ∈ offers.map Offer.key) := by
  intro offers
  induction offers with
  | nil => intro d _ k; simp
  | cons o rest ih =>
    intro d hall k
    rw [List.foldl_cons]
    have ho : (refreshOffer cfg o).productId = pid ∧ (refreshOffer cfg o).source = src := by
      have := hall o (List.mem_cons_self o rest)
      exact ⟨((refreshOffer_key cfg o).2.1).trans this.1,
             ((refreshOffer_key cfg o).2.2).trans this.2⟩
    rw [ih (OfferUpsert d (refreshOffer cfg o)) (fun x hx => hall x (List.mem_cons_of_mem o hx)) k]
    rw [pairOffers_upsert_keys d (refreshOffer cfg o) pid src ho k]
    rw [(refreshOffer_key cfg o).1]
    simp only [List.map_cons, List.mem_cons]
    tauto

/-- C6: after a fetch cycle for a (product, source) pair, the pair's stored
key set is exactly the key set of the cycle's offers, whatever was stored
before; in particular a first cycle with sellers A and B followed by a
second cycle with seller A only leaves exactly the A offer. -/
theorem C6_cycle_replaces_pair :
    (∀ (cfg : ShippingConfig) (db : List Offer) (pid : Nat) (src : String)
        (offers : List Offer),
        (∀ o ∈ offers, o.productId = pid ∧ o.source = src) →
        ∀ k : OfferKey,
          k ∈ (pairOffers (processOffers cfg db pid src offers) pid src).map Offer.key
            ↔ k ∈ offers.map Offer.key)
    ∧ ((pairOffers
          (processOffers ⟨"TABLE", 3, 150⟩
            (processOffers ⟨"TABLE", 3, 150⟩ [] 7 "s"
              [⟨7, "s", "A", "", 1000, 0, 0⟩, ⟨7, "s", "B", "", 2000, 0, 0⟩])
            7 "s" [⟨7, "s", "A", "", 1100, 0, 0⟩])
          7 "s").map (fun o => o.seller)) = ["A"] := by
  constructor
  · intro cfg db pid src offers hall k
    rw [processOffers]
    rw [foldl_upsert_keys cfg pid src offers (OfferDeleteByProductIDAndSource db pid src) hall k]
    rw [pairOffers_delete db pid src]
    simp
  · decide

/-- C6 witness: the general key-set identity applied to the two-cycle
scenario, showing the disappeared seller B is gone and seller A remains. -/
theorem C6_cycle_replaces_pair_witness :
    ((⟨7, "s", "A", "", 1100, 0, 0⟩ : Offer).key
        ∈ (pairOffers
            (processOffers ⟨"TABLE", 3, 150⟩
              (processOffers ⟨"TABLE", 3, 150⟩ [] 7 "s"
                [⟨7, "s", "A", "", 1000, 0, 0⟩, ⟨7, "s", "B", "", 2000, 0, 0⟩])
              7 "s" [⟨7, "s", "A", "", 1100, 0, 0⟩])
            7 "s").map Offer.key)
    ∧ ¬((⟨7, "s", "B", "", 2000, 0, 0⟩ : Offer).key
        ∈ (pairOffers
            (processOffers ⟨"TABLE", 3, 150⟩
              (processOffers ⟨"TABLE", 3, 150⟩ [] 7 "s"
                [⟨7, "s", "A", "", 1000, 0, 0⟩, ⟨7, "s", "B", "", 2000, 0, 0⟩])
              7 "s" [⟨7, "s", "A", "", 1100, 0, 0⟩])
            7 "s").map Offer.key) :=
  ⟨(C6_cycle_replaces_pair.1 ⟨"TABLE", 3, 150⟩
      (processOffers ⟨"TABLE", 3, 150⟩ [] 7 "s"
        [⟨7, "s", "A", "", 1000, 0, 0⟩, ⟨7, "s", "B", "", 2000, 0, 0⟩])
      7 "s" [⟨7, "s", "A", "", 1100, 0, 0⟩] (by decide)
      (⟨7, "s", "A", "", 1100, 0, 0⟩ : Offer).key).mpr (by decide),
   fun hmem =>
     absurd ((C6_cycle_replaces_pair.1 ⟨"TABLE", 3, 150⟩
      (processOffers ⟨"TABLE", 3, 150⟩ [] 7 "s"
        [⟨7, "s", "A", "", 1000, 0, 0⟩, ⟨7, "s", "B", "", 2000, 0, 0⟩])
      7 "s" [⟨7, "s", "A", "", 1100, 0, 0⟩] (by decide)
      (⟨7, "s", "B", "", 2000, 0, 0⟩ : Offer).key).mp hmem) (by decide)⟩

/-- Patching a matched product never changes its id. -/
theorem patchProduct_id (p : Product) (c : ProductCandidate) :
    (patchProduct p c).id = p.id := rfl

/-- Searching by id commutes with an id-preserving map of the product list. -/
theorem find?_id_map (f : Product → Product) (hf : ∀ q, (f q).id = q.id) (k : Nat) :
    ∀ l : List Product,
      (l.map f).find? (fun q => q.id = k) = (l.find? (fun q => q.id = k)).map f := by
  intro l
  induction l with
  | nil => rfl
  | cons q rest ih =>
    rw [List.map_cons]
    by_cases h : q.id = k
    · rw [List.find?_cons_of_pos _ (by simpa [hf q] using h),
        List.find?_cons_of_pos _ (by simpa using h)]
      rfl
    · rw [List.find?_cons_of_neg _ (by simpa [hf q] using h),
        List.find?_cons_of_neg _ (by simpa using h)]
      exact ih

/-- C7 counterexample: two walmart candidates share identifier value `123`
(hence the same resolved (itemId, 123) pair) yet resolve to different
products: the first is absorbed into an existing product by title without
persisting the identifier mapping, so the second, whose title matches
nothing, creates a fresh product. -/
theorem C7_counterexample :
    ((resolveCandidate ⟨[⟨0, "T1", none, none, none⟩], [], 1⟩
        ⟨"T1", none, none, none, some "123"⟩ "walmart").1).id = 0
    ∧ ((resolveCandidate
          (resolveCandidate ⟨[⟨0, "T1", none, none, none⟩], [], 1⟩
            ⟨"T1", none, none, none, some "123"⟩ "walmart").2
          ⟨"T2", none, none, none, some "123"⟩ "walmart").1).id = 1 := by
  exact ⟨by decide, by decide⟩

/-- C7 amended: the identifier lookup is performed first and dominates the
title lookup; a candidate with no identifier and an unmatched title always
creates a fresh product; and two candidates with the same resolved
identifier (type, value) pair resolve to the same product whenever the
first one is not absorbed through the title fallback (which does not
persist the mapping) — that is, whenever the mapping already exists or no
existing product carries the first candidate's title. -/
theorem C7_identifier_dominates_title :
    (∀ (st : RepoState) (c : ProductCandidate) (src : String) (p : Product),
        lookupByIdentifier st c src = some p →
        (resolveCandidate st c src).1.id = p.id)
    ∧ (∀ (st : RepoState) (c : ProductCandidate) (src : String),
        c.identifier = none → FindByTitle st c.title = none → freshIds st →
        (resolveCandidate st c src).1.id = st.nextId
        ∧ ∀ p ∈ st.products, p.id ≠ (resolveCandidate st c src).1.id)
    ∧ (∀ (st : RepoState) (c1 c2 : ProductCandidate) (src1 src2 v : String),
        freshIds st → wfIdentifiers st →
        c1.identifier = some v → c2.identifier = some v → v ≠ "" →
        getIdentifierType src1 ≠ "" →
        getIdentifierType src2 = getIdentifierType src1 →
        ((FindByTypeAndValue st (getIdentifierType src1) v).isSome = true
          ∨ FindByTitle st c1.title = none) →
        (resolveCandidate st c1 src1).1.id
          = (resolveCandidate (resolveCandidate st c1 src1).2 c2 src2).1.id) := by
  refine ⟨?_, ?_, ?_⟩
  · intro st c src p h
    simp only [resolveCandidate, h]
    rfl
  · intro st c src hid htitle hfresh
    have hlk : lookupByIdentifier st c src = none := by
      rw [lookupByIdentifier, hid]
    constructor
    · simp only [resolveCandidate, hlk, htitle]
    · intro p hp
      have hlt := hfresh p hp
      simp only [resolveCandidate, hlk, htitle]
      omega
  · intro st c1 c2 src1 src2 v hfresh hwf hc1 hc2 hv ht hsame hcase
    have hlk1 : lookupByIdentifier st c1 src1
        = FindByTypeAndValue st (getIdentifierType src1) v := by
      simp only [lookupByIdentifier, hc1]
      rw [if_pos hv, if_pos ht]
    have hlk2 : ∀ st9, lookupByIdentifier st9 c2 src2
        = FindByTypeAndValue st9 (getIdentifierType src1) v := by
      intro st9
      simp only [lookupByIdentifier, hc2]
      rw [if_pos hv, hsame, if_pos ht]
    cases hfv : FindByTypeAndValue st (getIdentifierType src1) v with
    | some p =>
      have h1 : resolveCandidate st c1 src1
          = (patchProduct p c1, updateProduct st (patchProduct p c1)) := by
        simp only [resolveCandidate, hlk1, hfv]
      cases hi : st.identifiers.find?
          (fun i => i.idType = getIdentifierType src1 ∧ i.value = v) with
      | none =>
        simp only [FindByTypeAndValue, hi] at hfv
        exact Option.noConfusion hfv
      | some i =>
        have hp : st.products.find? (fun q => q.id = i.productId) = some p := by
          simp only [FindByTypeAndValue, hi] at hfv
          exact hfv
        have hf : ∀ q : Product,
            ((fun q => if q.id = (patchProduct p c1).id then patchProduct p c1 else q) q).id
              = q.id := by
          intro q
          dsimp only
          by_cases h : q.id = (patchProduct p c1).id
          · rw [if_pos h]; exact h.symm
          · rw [if_neg h]
        have hfind2 : FindByTypeAndValue (updateProduct st (patchProduct p c1))
            (getIdentifierType src1) v
            = some ((fun q => if q.id = (patchProduct p c1).id then patchProduct p c1 else q) p) := by
          simp only [FindByTypeAndValue, updateProduct, hi]
          rw [find?_id_map _ hf i.productId st.products, hp]
          rfl
        have hr2 : (resolveCandidate (updateProduct st (patchProduct p c1)) c2 src2).1.id
            = p.id := by
          simp only [resolveCandidate, hlk2 (updateProduct st (patchProduct p c1)), hfind2]
          exact hf p
        rw [h1]
        show (patchProduct p c1).id
          = (resolveCandidate (updateProduct st (patchProduct p c1)) c2 src2).1.id
        rw [hr2]
        rfl
    | none =>
      have htitle1 : FindByTitle st c1.title = none := by
        rcases hcase with hsome | h
        · rw [hfv] at hsome; simp at hsome
        · exact h
      have hidnone : st.identifiers.find?
          (fun i => i.idType = getIdentifierType src1 ∧ i.value = v) = none := by
        cases hi : st.identifiers.find?
            (fun i => i.idType = getIdentifierType src1 ∧ i.value = v) with
        | none => rfl
        | some i =>
          exfalso
          obtain ⟨q, hqmem, hqid⟩ := hwf i (List.mem_of_find?_eq_some hi)
          have hnone : st.products.find? (fun q => q.id = i.productId) = none := by
            simp only [FindByTypeAndValue, hi] at hfv
            exact hfv
          have := List.find?_eq_none.mp hnone q hqmem
          simp [hqid] at this
      have h1 : resolveCandidate st c1 src1
          = ((⟨st.nextId, c1.title, c1.brand, c1.model, c1.imageURL⟩ : Product),
             (⟨st.products ++ [(⟨st.nextId, c1.title, c1.brand, c1.model, c1.imageURL⟩ : Product)],
              st.identifiers ++ [(⟨st.nextId, getIdentifierType src1, v⟩ : IdentifierRow)],
              st.nextId + 1⟩ : RepoState)) := by
        simp only [resolveCandidate, hlk1, hfv, htitle1, hc1]
        rw [if_pos ⟨hv, ht⟩]
      have hid2 : (st.identifiers
          ++ [(⟨st.nextId, getIdentifierType src1, v⟩ : IdentifierRow)]).find?
            (fun i => i.idType = getIdentifierType src1 ∧ i.value = v)
          = some (⟨st.nextId, getIdentifierType src1, v⟩ : IdentifierRow) := by
        rw [List.find?_append, hidnone]
        simp
      have hprodnone : st.products.find? (fun q => q.id = st.nextId) = none := by
        refine List.find?_eq_none.mpr ?_
        intro q hq
        have := hfresh q hq
        simp only [decide_eq_true_eq]
        omega
      have hprod2 : (st.products
          ++ [(⟨st.nextId, c1.title, c1.brand, c1.model, c1.imageURL⟩ : Product)]).find?
            (fun q => q.id = st.nextId)
          = some (⟨st.nextId, c1.title, c1.brand, c1.model, c1.imageURL⟩ : Product) := by
        rw [List.find?_append, hprodnone]
        simp
      have hfind2 : FindByTypeAndValue
          ((⟨st.products ++ [(⟨st.nextId, c1.title, c1.brand, c1.model, c1.imageURL⟩ : Product)],
            st.identifiers ++ [(⟨st.nextId, getIdentifierType src1, v⟩ : IdentifierRow)],
            st.nextId + 1⟩ : RepoState))
          (getIdentifierType src1) v
          = some (⟨st.nextId, c1.title, c1.brand, c1.model, c1.imageURL⟩ : Product) := by
        simp only [FindByTypeAndValue, hid2]
        exact hprod2
      have hr2 : (resolveCandidate
          ((⟨st.products ++ [(⟨st.nextId, c1.title, c1.brand, c1.model, c1.imageURL⟩ : Product)],
            st.identifiers ++ [(⟨st.nextId, getIdentifierType src1, v⟩ : IdentifierRow)],
            st.nextId + 1⟩ : RepoState)) c2 src2).1.id = st.nextId := by
        simp only [resolveCandidate, hlk2 _, hfind2]
        rfl
      rw [h1]
      show st.nextId = (resolveCandidate
          ((⟨st.products ++ [(⟨st.nextId, c1.title, c1.brand, c1.model, c1.imageURL⟩ : Product)],
            st.identifiers ++ [(⟨st.nextId, getIdentifierType src1, v⟩ : IdentifierRow)],
            st.nextId + 1⟩ : RepoState)) c2 src2).1.id
      rw [hr2]

/-- C7 witness: the amended same-identifier merge applied to two concrete
walmart candidates with different titles against an empty store: both
resolve to the product created by the first. -/
theorem C7_identifier_dominates_title_witness :
    ((resolveCandidate (⟨[], [], 0⟩ : RepoState)
        ⟨"T1", none, none, none, some "123"⟩ "walmart").1).id
      = ((resolveCandidate
            (resolveCandidate (⟨[], [], 0⟩ : RepoState)
              ⟨"T1", none, none, none, some "123"⟩ "walmart").2
            ⟨"T2", none, none, none, some "123"⟩ "walmart").1).id :=
  C7_identifier_dominates_title.2.2 ⟨[], [], 0⟩
    ⟨"T1", none, none, none, some "123"⟩ ⟨"T2", none, none, none, some "123"⟩
    "walmart" "walmart" "123"
    (by intro p hp; simp at hp) (by intro i hi; simp at hi)
    rfl rfl (by decide) (by decide) rfl
    (Or.inr (by decide))

/-- C10 witness: the classification and client behaviour evaluated at the
host `localhost.attacker.example` with live fetch disabled. -/
theorem C10_loopback_substring_classified_internal_witness :
    (containsSub (("localhost").toList)
        (lowerStr (("localhost.attacker.example").toList)) = true)
    ∧ (ClientGet ⟨false, "UA", 3⟩ (some ⟨"http", "localhost.attacker.example", "/a"⟩)
        ⟨.ok true [], none, fun _ => .resp 200, fun _ => false⟩).robotsConsulted = false :=
  ⟨by decide,
   (C10_loopback_substring_classified_internal.1
      ⟨"http", "localhost.attacker.example", "/a"⟩ ⟨false, "UA", 3⟩
      ⟨.ok true [], none, fun _ => .resp 200, fun _ => false⟩
      (Or.inl rfl) (Or.inl (by decide))).2.1⟩

end ScrapingApp
